import Mathlib

/-!
# go-ecommerce: the web bootstrap (`cmd/web/main.go`)

A shallow embedding of the process bootstrap: the `config` and `Application`
records, the functional options `SetIdleTimeOut` .. `SetHeaderTimeOut`, the
constructor `NewApplication` and the part of `Serve` that precedes the blocking
`ListenAndServe` call.

Conventions of the embedding
* Go `int` and `time.Duration` are 64-bit signed integers.  They are modelled by
  `Int`; every arithmetic result is reduced with `wrapInt64`.
* A Go pointer to a freshly allocated `Application` is an index into the
  `heap` of the `Process` record; a `nil` pointer or `nil` map is `none`.
* The standard library calls the file makes (`flag`, `strconv.ParseInt`,
  `os.Getenv`, `fmt.Sprintf`) are modelled after the Go standard library, on the
  process-global flag set `flag.CommandLine`.
-/

namespace GoEcommerce

/-! ## Machine integers and durations -/

/-- Two's-complement reduction of an integer to the signed 64-bit range. -/
def wrapInt64 (x : Int) : Int := (x + 2 ^ 63) % 2 ^ 64 - 2 ^ 63

/-- Go `time.Duration`: a count of nanoseconds held in an `int64`. -/
abbrev Duration := Int

/-- Go `time.Second`. -/
def Second : Duration := 1000000000

/-- The expression `time.Duration(timeOut) * time.Second`: the conversion of an
`int` to `int64` followed by a wrapping `int64` multiplication. -/
def secondsDuration (timeOut : Int) : Duration :=
  wrapInt64 (wrapInt64 timeOut * Second)

/-! ## Data model -/

/-- `const version string = "1.0.0"`. -/
def version : String := "1.0.0"

/-- `const cssVersion string = "1"`. -/
def cssVersion : String := "1"

/-- The anonymous struct of `config.db`. -/
structure DbConfig where
  dsn : String
  deriving DecidableEq, Repr

/-- The anonymous struct of `config.stripe`. -/
structure StripeConfig where
  secret : String
  key : String
  deriving DecidableEq, Repr

/-- Go `type config struct`. -/
structure config where
  port : Int
  env : String
  api : String
  db : DbConfig
  stripe : StripeConfig
  deriving DecidableEq, Repr

/-- The zero value of `config` (`var config config`). -/
def config.zero : config :=
  { port := 0, env := "", api := "", db := { dsn := "" }, stripe := { secret := "", key := "" } }

/-- The destination of a logger; the file only ever uses `os.Stdout`. -/
inductive Writer where
  | Stdout
  | Stderr
  deriving DecidableEq, Repr

/-- Go `log.Ldate`. -/
def Ldate : Nat := 1
/-- Go `log.Ltime`. -/
def Ltime : Nat := 2
/-- Go `log.Lshortfile`. -/
def Lshortfile : Nat := 16

/-- The state `log.New(out, tag, flag)` stores in a `log.Logger`. -/
structure Logger where
  out : Writer
  tag : String
  flag : Nat
  deriving DecidableEq, Repr

/-- A compiled `html/template.Template`; none is ever built by this file, so the
record only carries a name. -/
structure Template where
  name : String
  deriving DecidableEq, Repr

/-- Go `type Application struct`.  Pointer and map fields are `Option`s, `none`
being `nil`; a non-nil map is its list of entries. -/
structure Application where
  config : config
  infoLog : Option Logger
  errorLog : Option Logger
  templateCache : Option (List (String × Template))
  version : String
  idleTimeOut : Duration
  readTimeOut : Duration
  headerTimeOut : Duration
  writeTimeOut : Duration
  deriving DecidableEq, Repr

/-- The zero value `Application{}`. -/
def Application.zero : Application :=
  { config := config.zero, infoLog := none, errorLog := none, templateCache := none,
    version := "", idleTimeOut := 0, readTimeOut := 0, headerTimeOut := 0, writeTimeOut := 0 }

/-- Go `type Option func(app *Application)`: the effect of the function on the
`Application` its argument points to. -/
abbrev AppOption := Application → Application

/-! ## The functional options -/

/-- Go `SetIdleTimeOut`. -/
def SetIdleTimeOut (timeOut : Int) : AppOption :=
  fun app => { app with idleTimeOut := secondsDuration timeOut }

/-- Go `SetWriteTimeOut`. -/
def SetWriteTimeOut (timeOut : Int) : AppOption :=
  fun app => { app with writeTimeOut := secondsDuration timeOut }

/-- Go `SetReadTimeOut`. -/
def SetReadTimeOut (timeOut : Int) : AppOption :=
  fun app => { app with readTimeOut := secondsDuration timeOut }

/-- Go `SetHeaderTimeOut`. -/
def SetHeaderTimeOut (timeOut : Int) : AppOption :=
  fun app => { app with headerTimeOut := secondsDuration timeOut }

/-! ## `strconv.ParseInt(s, 0, 64)`

Go strings are byte sequences.  Every test the parsers below make on a byte
compares it with an ASCII character, and no byte of a multi-byte UTF-8 sequence
is ASCII, so working on the list of characters gives the same results. -/

/-- The errors of `strconv`: `ErrSyntax` and `ErrRange`. -/
inductive NumError where
  | ErrSyntax
  | ErrRange
  deriving DecidableEq, Repr

/-- The digit value `ParseUint` gives a byte: `c - '0'` for a decimal digit,
`lower(c) - 'a' + 10` for a letter (`lower(c) = c | 0x20` lies in `'a'..'z'`
exactly for the ASCII letters of either case), and no value otherwise. -/
def digitVal (c : Char) : Option Nat :=
  if 48 ≤ c.toNat ∧ c.toNat ≤ 57 then some (c.toNat - 48)
  else if 97 ≤ c.toNat ∧ c.toNat ≤ 122 then some (c.toNat - 97 + 10)
  else if 65 ≤ c.toNat ∧ c.toNat ≤ 90 then some (c.toNat - 65 + 10)
  else none

/-- The digit loop of `strconv.ParseUint` for bit size 64, started at the
accumulator `n`; `base0` says that underscores are skipped.  The unsigned
arithmetic is reduced modulo `2 ^ 64` as in Go. -/
def parseDigits (base : Nat) (base0 : Bool) : Nat → List Char → Except NumError Nat
  | n, [] => .ok n
  | n, c :: cs =>
    if c = '_' ∧ base0 = true then parseDigits base base0 n cs
    else
      match digitVal c with
      | none => .error .ErrSyntax
      | some d =>
        if d ≥ base then .error .ErrSyntax
        else if n ≥ (2 ^ 64 - 1) / base + 1 then .error .ErrRange
        else
          let m := (n * base) % 2 ^ 64
          let n1 := (m + d) % 2 ^ 64
          if n1 < m ∨ n1 > 2 ^ 64 - 1 then .error .ErrRange
          else parseDigits base base0 n1 cs

/-- The scan of `strconv.underscoreOK` over the number proper; `saw` is the
class of the previous byte (`'^'`, `'0'`, `'_'` or `'!'`). -/
def underscoreScan (hex : Bool) : Char → List Char → Bool
  | saw, [] => saw != '_'
  | saw, c :: cs =>
    if (48 ≤ c.toNat ∧ c.toNat ≤ 57) ∨
        (hex = true ∧ ((97 ≤ c.toNat ∧ c.toNat ≤ 102) ∨ (65 ≤ c.toNat ∧ c.toNat ≤ 70))) then
      underscoreScan hex '0' cs
    else if c = '_' then
      if saw != '0' then false else underscoreScan hex '_' cs
    else if saw = '_' then false
    else underscoreScan hex '!' cs

/-- Whether `c` is `x` in either case, and likewise for the other base letters. -/
def isBaseLetter (l : Char) (c : Char) : Bool :=
  c = l || c = l.toUpper

/-- Go `strconv.underscoreOK`: underscores only separate digits (or follow the
base prefix). -/
def underscoreOK (s : List Char) : Bool :=
  let s := match s with
    | '-' :: t => t
    | '+' :: t => t
    | _ => s
  match s with
  | '0' :: c :: t =>
    if isBaseLetter 'b' c || isBaseLetter 'o' c || isBaseLetter 'x' c then
      underscoreScan (isBaseLetter 'x' c) '0' t
    else underscoreScan false '^' s
  | _ => underscoreScan false '^' s

/-- Go `strconv.ParseUint(s, 0, 64)`. -/
def ParseUint (s : List Char) : Except NumError Nat :=
  match s with
  | [] => .error .ErrSyntax
  | _ =>
    let (base, digits) : Nat × List Char :=
      match s with
      | '0' :: c :: d :: t =>
        if isBaseLetter 'b' c then (2, d :: t)
        else if isBaseLetter 'o' c then (8, d :: t)
        else if isBaseLetter 'x' c then (16, d :: t)
        else (8, c :: d :: t)
      | '0' :: t => (8, t)
      | _ => (10, s)
    match parseDigits base true 0 digits with
    | .error e => .error e
    | .ok n =>
      if digits.contains '_' ∧ underscoreOK s = false then .error .ErrSyntax
      else .ok n

/-- Go `strconv.ParseInt(s, 0, 64)`.  A range error of `ParseUint` comes with
the value `maxUint64`, which the cutoff test below turns into a range error as
well. -/
def ParseInt (s : List Char) : Except NumError Int :=
  match s with
  | [] => .error .ErrSyntax
  | c :: t =>
    let neg : Bool := c = '-'
    let body := if c = '+' ∨ c = '-' then t else s
    match ParseUint body with
    | .error e => .error e
    | .ok un =>
      if neg = false ∧ un ≥ 2 ^ 63 then .error .ErrRange
      else if neg = true ∧ un > 2 ^ 63 then .error .ErrRange
      else
        let n := wrapInt64 (un : Int)
        .ok (if neg then wrapInt64 (-n) else n)


/-! ## The `flag` package on `flag.CommandLine`

Only `IntVar` and `StringVar` are called by this program, so a flag value is an
`int` or a `string`; the boolean-flag branch of `parseOne` never applies. -/

/-- The two `flag.Value` implementations in use, each holding the current value
of the variable the flag is bound to. -/
inductive Value where
  | intValue (v : Int)
  | stringValue (v : String)
  deriving DecidableEq, Repr

/-- Go `Value.String()` (named `text` here, `String` being the type). -/
def Value.text : Value → String
  | .intValue v => toString v
  | .stringValue v => v

/-- Go `Value.Set(s)`: `intValue.Set` parses with `strconv.ParseInt(s, 0, 64)`,
`stringValue.Set` stores the text. -/
def Value.Set : Value → String → Except NumError Value
  | .intValue _, s =>
    match ParseInt s.data with
    | .ok v => .ok (.intValue v)
    | .error e => .error e
  | .stringValue _, s => .ok (.stringValue s)

/-- Go `flag.Flag`. -/
structure Flag where
  Name : String
  Usage : String
  Value : Value
  DefValue : String
  deriving DecidableEq, Repr

/-- Go `flag.FlagSet`: the `formal` map (its entries, one per name), the names
of the `actual` map, the remaining arguments and the `parsed` mark. -/
structure FlagSet where
  formal : List Flag
  actual : List String
  args : List String
  parsed : Bool
  deriving DecidableEq, Repr

/-- The errors `parseOne` reports through `failf`, and `ErrHelp`. -/
inductive ParseError where
  | badFlagSyntax (s : String)
  | ErrHelp
  | notDefined (name : String)
  | needsArgument (name : String)
  | invalidValue (value : String) (name : String) (err : NumError)
  deriving DecidableEq, Repr

/-- The ways the bootstrap can stop before returning. -/
inductive Failure where
  | panicFlagBeginsWithMinus (name : String)
  | panicFlagContainsEquals (name : String)
  | panicFlagRedefined (name : String)
  | exit (code : Nat) (err : ParseError)
  | panicNilDereference
  deriving DecidableEq, Repr

/-- The entry of the `formal` map under `name`. -/
def FlagSet.lookup (f : FlagSet) (name : String) : Option Flag :=
  f.formal.find? (fun fl => fl.Name = name)

/-- Go `(*FlagSet).Var`: panics on a malformed or already defined name, and
otherwise records the flag (with its current value as default text). -/
def FlagSet.Var (f : FlagSet) (value : Value) (name : String) (usage : String) :
    Except Failure FlagSet :=
  if name.data.head? = some '-' then .error (.panicFlagBeginsWithMinus name)
  else if '=' ∈ name.data then .error (.panicFlagContainsEquals name)
  else if (f.lookup name).isSome then .error (.panicFlagRedefined name)
  else .ok { f with formal := f.formal ++ [{ Name := name, Usage := usage, Value := value,
                                              DefValue := value.text }] }

/-- The overwrite of the variable behind the flag `name`. -/
def FlagSet.store (f : FlagSet) (name : String) (v : Value) : FlagSet :=
  { f with formal := f.formal.map (fun fl => if fl.Name = name then { fl with Value := v } else fl) }

/-- The loop of `parseOne` that looks for the first `=` at an index of at
least 1: `(name, hasValue, value)`. -/
def splitEquals : List Char → List Char × Bool × List Char
  | [] => ([], false, [])
  | c :: cs =>
    match cs.span (fun x => x != '=') with
    | (pre, []) => (c :: pre, false, [])
    | (pre, _ :: post) => (c :: pre, true, post)

/-- Go `(*FlagSet).parseOne`: the flag set afterwards and `(seen, err)`. -/
def FlagSet.parseOne (f : FlagSet) : FlagSet × Except ParseError Bool :=
  match f.args with
  | [] => (f, .ok false)
  | s :: rest =>
    match s.data with
    | '-' :: c :: cs =>
      if c = '-' ∧ cs = [] then ({ f with args := rest }, .ok false)
      else
        let name := if c = '-' then cs else c :: cs
        if name = [] ∨ name.head? = some '-' ∨ name.head? = some '=' then
          (f, .error (.badFlagSyntax s))
        else
          let f := { f with args := rest }
          match splitEquals name with
          | (nm, hasValue, value) =>
            let name := String.mk nm
            match f.lookup name with
            | none =>
              if name = "help" ∨ name = "h" then (f, .error .ErrHelp)
              else (f, .error (.notDefined name))
            | some fl =>
              let next : Option (String × FlagSet) :=
                if hasValue then some (String.mk value, f)
                else
                  match f.args with
                  | v :: rest2 => some (v, { f with args := rest2 })
                  | [] => none
              match next with
              | none => (f, .error (.needsArgument name))
              | some (v, f) =>
                match fl.Value.Set v with
                | .error e => (f, .error (.invalidValue v name e))
                | .ok val =>
                  ({ f.store name val with actual := name :: f.actual }, .ok true)
    | _ => (f, .ok false)

/-- The `for` loop of `(*FlagSet).Parse`, run for at most `fuel` rounds: the
flag set afterwards and the error that stopped it, if any.  Each round that
continues removes an argument, so `args.length + 1` rounds always suffice
(`parseLoop_fuel`). -/
def FlagSet.parseLoop : Nat → FlagSet → FlagSet × Option ParseError
  | 0, f => (f, none)
  | fuel + 1, f =>
    match f.parseOne with
    | (f1, .ok true) => parseLoop fuel f1
    | (f1, .ok false) => (f1, none)
    | (f1, .error e) => (f1, some e)

/-- Go `(*FlagSet).Parse(arguments)` up to the error handling. -/
def FlagSet.Parse (f : FlagSet) (arguments : List String) : FlagSet × Option ParseError :=
  FlagSet.parseLoop (arguments.length + 1) { f with parsed := true, args := arguments }

/-- The exit status `Parse` ends the process with under `ExitOnError`, the
policy of `flag.CommandLine`. -/
def exitCode : ParseError → Nat
  | .ErrHelp => 0
  | _ => 2

/-- The content of an `int` variable bound to the flag `name`; `cur` is the
content of a variable no flag is bound to. -/
def FlagSet.intVar (f : FlagSet) (name : String) (cur : Int) : Int :=
  match f.lookup name with
  | some { Value := .intValue v, .. } => v
  | _ => cur

/-- The content of a `string` variable bound to the flag `name`. -/
def FlagSet.stringVar (f : FlagSet) (name : String) (cur : String) : String :=
  match f.lookup name with
  | some { Value := .stringValue v, .. } => v
  | _ => cur

/-! ## The process and `NewApplication` -/

/-- The process state the bootstrap reads and writes: the command line after
the program name (`os.Args[1:]`), the environment, the global flag set and the
allocated `Application`s. -/
structure Process where
  Args : List String
  environ : List (String × String)
  CommandLine : FlagSet
  heap : List Application
  deriving DecidableEq, Repr

/-- A process at start-up: nothing registered on `flag.CommandLine`, nothing
allocated. -/
def Process.start (args : List String) (environ : List (String × String)) : Process :=
  { Args := args, environ := environ,
    CommandLine := { formal := [], actual := [], args := [], parsed := false },
    heap := [] }

/-- Go `os.Getenv`: the value of the variable, or the empty string. -/
def Process.Getenv (p : Process) (key : String) : String :=
  match p.environ.find? (fun kv => kv.1 = key) with
  | some kv => kv.2
  | none => ""

/-- Go `log.New`. -/
def Logger.New (out : Writer) (tag : String) (flag : Nat) : Logger :=
  { out := out, tag := tag, flag := flag }

/-- Lines 70-90 of `main.go`: the loggers, the empty map, the allocation of the
`Application`, its field assignments and the option loop. -/
def buildApplication (cfg : config) (opts : List AppOption) : Application :=
  let infoLog := Logger.New .Stdout "INFO\t" (Ldate ||| Ltime)
  let errorLog := Logger.New .Stdout "ERROR\t" (Ldate ||| Ltime ||| Lshortfile)
  let templateCache : List (String × Template) := []
  let app := Application.zero
  let app := { app with infoLog := some infoLog }
  let app := { app with errorLog := some errorLog }
  let app := { app with templateCache := some templateCache }
  let app := { app with config := cfg }
  let app := { app with version := version }
  let app := { app with idleTimeOut := wrapInt64 (wrapInt64 5 * Second) }
  let app := { app with headerTimeOut := wrapInt64 (wrapInt64 5 * Second) }
  let app := { app with writeTimeOut := wrapInt64 (wrapInt64 5 * Second) }
  let app := { app with readTimeOut := wrapInt64 (wrapInt64 5 * Second) }
  opts.foldl (fun app option => option app) app

/-- Go `NewApplication(opts...)`: the process afterwards and either the pointer
to the new `Application` (its index in the heap) or the failure that stopped
the call. -/
def NewApplication (p : Process) (opts : List AppOption) : Process × Except Failure Nat :=
  let cfg := config.zero
  let cfg := { cfg with port := 3001 }
  match p.CommandLine.Var (.intValue 3001) "port" "Server port to listen on" with
  | .error e => (p, .error e)
  | .ok f1 =>
    let cfg := { cfg with env := "development" }
    match f1.Var (.stringValue "development") "env"
        "Application environment \x7bapplication | production\x7d" with
    | .error e => ({ p with CommandLine := f1 }, .error e)
    | .ok f2 =>
      let cfg := { cfg with api := "http://localhost:3000" }
      match f2.Var (.stringValue "http://localhost:3000") "api" "URL to api" with
      | .error e => ({ p with CommandLine := f2 }, .error e)
      | .ok f3 =>
        match f3.Parse p.Args with
        | (f4, some e) => ({ p with CommandLine := f4 }, .error (.exit (exitCode e) e))
        | (f4, none) =>
          let p := { p with CommandLine := f4 }
          let cfg := { cfg with port := f4.intVar "port" cfg.port,
                                env := f4.stringVar "env" cfg.env,
                                api := f4.stringVar "api" cfg.api }
          let cfg := { cfg with stripe := { cfg.stripe with key := p.Getenv "STRIPE_KEY" } }
          let cfg := { cfg with stripe := { cfg.stripe with secret := p.Getenv "STRIPE_SECRET" } }
          let app := buildApplication cfg opts
          ({ p with heap := p.heap ++ [app] }, .ok p.heap.length)

/-- The options `main` passes to `NewApplication`. -/
def mainOptions : List AppOption :=
  [SetIdleTimeOut 30, SetReadTimeOut 10, SetHeaderTimeOut 5, SetWriteTimeOut 5]

/-! ## `Serve` -/

/-- The fields of `http.Server` that `Serve` sets; `H` is the type of request
handlers. -/
structure Server (H : Type) where
  Addr : String
  Handler : H
  IdleTimeout : Duration
  ReadTimeout : Duration
  ReadHeaderTimeout : Duration
  WriteTimeout : Duration

/-- The verb `%d` of `fmt` on an `int`: the decimal digits, after a minus sign
for a negative number. -/
def formatInt (n : Int) : String := toString n

/-- The text `Serve` hands to `infoLog.Printf`. -/
def startupLine (cfg : config) : String :=
  "Starting HTTP server in " ++ cfg.env ++ " mode on port: " ++ formatInt cfg.port ++ "\n"

/-- The `http.Server` literal of `Serve`.  `Routes` is the method
`app.Routes()`, which lives in another file of the package. -/
def Application.server {H : Type} (Routes : Application → H) (app : Application) : Server H :=
  { Addr := ":" ++ formatInt app.config.port,
    Handler := Routes app,
    IdleTimeout := app.idleTimeOut,
    ReadTimeout := app.readTimeOut,
    ReadHeaderTimeout := app.headerTimeOut,
    WriteTimeout := app.writeTimeOut }

/-- What a call of `Serve` does: the server it built, the line it logged and
the value `ListenAndServe` returned. -/
structure ServeRun (H E : Type) where
  srv : Server H
  logged : String
  result : E

/-- Go `(*Application).Serve`.  `ListenAndServe` is the blocking call of
`net/http`; logging through a `nil` logger panics. -/
def Application.Serve {H E : Type} (Routes : Application → H) (ListenAndServe : Server H → E)
    (app : Application) : Except Failure (ServeRun H E) :=
  let srv := app.server Routes
  match app.infoLog with
  | none => .error .panicNilDereference
  | some _ =>
    .ok { srv := srv, logged := startupLine app.config, result := ListenAndServe srv }


/-! ## Sequences of setter calls (for the statements about option lists) -/

/-- The four timeout fields of an `Application`. -/
inductive TimeoutField where
  | idle
  | read
  | header
  | write
  deriving DecidableEq, Repr

/-- A call `SetIdleTimeOut(n)`, `SetReadTimeOut(n)`, `SetHeaderTimeOut(n)` or
`SetWriteTimeOut(n)`, named by the field it targets. -/
structure SetterCall where
  field : TimeoutField
  n : Int
  deriving DecidableEq, Repr

/-- The option a setter call evaluates to. -/
def SetterCall.toOption (c : SetterCall) : AppOption :=
  match c.field with
  | .idle => SetIdleTimeOut c.n
  | .read => SetReadTimeOut c.n
  | .header => SetHeaderTimeOut c.n
  | .write => SetWriteTimeOut c.n

/-- The value of one timeout field of an `Application`. -/
def Application.timeout (app : Application) : TimeoutField → Duration
  | .idle => app.idleTimeOut
  | .read => app.readTimeOut
  | .header => app.headerTimeOut
  | .write => app.writeTimeOut

/-- The argument of the last call in the sequence that targets `fld`, if any
call does. -/
def lastValue (fld : TimeoutField) (calls : List SetterCall) : Option Int :=
  ((calls.filter (fun c => c.field = fld)).getLast?).map (fun c => c.n)

/-- The duration the specification gives a field after the calls: that of the
last call targeting it, else the default. -/
def expectedTimeout (dflt : Duration) (fld : TimeoutField) (calls : List SetterCall) : Duration :=
  match lastValue fld calls with
  | some n => secondsDuration n
  | none => dflt

/-- Every field of the record other than the timeout `fld` is the same in `a`
and in `b`: the configuration, both loggers, the template mapping, the version
string and the three other timeouts. -/
def framed (fld : TimeoutField) (a b : Application) : Prop :=
  b.config = a.config ∧ b.infoLog = a.infoLog ∧ b.errorLog = a.errorLog ∧
  b.templateCache = a.templateCache ∧ b.version = a.version ∧
  ∀ g : TimeoutField, g ≠ fld → b.timeout g = a.timeout g

/-- The option loop of `NewApplication` run on the calls. -/
def applyCalls (app : Application) (calls : List SetterCall) : Application :=
  (calls.map SetterCall.toOption).foldl (fun app option => option app) app

/-- The flag set `flag.CommandLine` holds once a fresh process has run the
three registrations of `NewApplication`. -/
def startFlags : FlagSet :=
  { formal := [{ Name := "port", Usage := "Server port to listen on",
                 Value := .intValue 3001, DefValue := "3001" },
               { Name := "env",
                 Usage := "Application environment \x7bapplication | production\x7d",
                 Value := .stringValue "development", DefValue := "development" },
               { Name := "api", Usage := "URL to api",
                 Value := .stringValue "http://localhost:3000",
                 DefValue := "http://localhost:3000" }],
    actual := [], args := [], parsed := false }

/-- The configuration `NewApplication` assembles from the parsed flag set and
the environment. -/
def configOf (f : FlagSet) (p : Process) : config :=
  { port := f.intVar "port" 3001,
    env := f.stringVar "env" "development",
    api := f.stringVar "api" "http://localhost:3000",
    db := { dsn := "" },
    stripe := { secret := p.Getenv "STRIPE_SECRET", key := p.Getenv "STRIPE_KEY" } }

/-- An `int` flag named `port` holds a value of the signed 64-bit range. -/
def portInRange (l : List Flag) : Prop :=
  ∀ e ∈ l, e.Name = "port" → ∃ v : Int, e.Value = .intValue v ∧ -2 ^ 63 ≤ v ∧ v < 2 ^ 63

/-- The `Application` as it stands when the option loop of `NewApplication`
starts (lines 74-84). -/
def initialApplication (cfg : config) : Application :=
  { config := cfg,
    infoLog := some (Logger.New .Stdout "INFO\t" (Ldate ||| Ltime)),
    errorLog := some (Logger.New .Stdout "ERROR\t" (Ldate ||| Ltime ||| Lshortfile)),
    templateCache := some [],
    version := version,
    idleTimeOut := wrapInt64 (wrapInt64 5 * Second),
    readTimeOut := wrapInt64 (wrapInt64 5 * Second),
    headerTimeOut := wrapInt64 (wrapInt64 5 * Second),
    writeTimeOut := wrapInt64 (wrapInt64 5 * Second) }

/-! ## Arithmetic of `wrapInt64` -/

theorem wrapInt64_range (x : Int) : -2 ^ 63 ≤ wrapInt64 x ∧ wrapInt64 x < 2 ^ 63 := by
  unfold wrapInt64
  norm_num
  omega

theorem wrapInt64_eq_self_iff (x : Int) : wrapInt64 x = x ↔ -2 ^ 63 ≤ x ∧ x < 2 ^ 63 := by
  unfold wrapInt64
  norm_num
  omega

theorem wrapInt64_of_range {x : Int} (h1 : -2 ^ 63 ≤ x) (h2 : x < 2 ^ 63) : wrapInt64 x = x :=
  (wrapInt64_eq_self_iff x).2 ⟨h1, h2⟩

theorem secondsDuration_exact_iff (n : Int) :
    secondsDuration n = n * Second ↔ -9223372036 ≤ n ∧ n ≤ 9223372036 := by
  constructor
  · intro h
    have hr := wrapInt64_range (wrapInt64 n * Second)
    have h' : -2 ^ 63 ≤ n * Second ∧ n * Second < 2 ^ 63 := by
      unfold secondsDuration at h
      rw [h] at hr
      exact hr
    unfold Second at h'
    norm_num at h'
    omega
  · intro h
    have hn : wrapInt64 n = n := by
      apply wrapInt64_of_range <;> norm_num <;> omega
    unfold secondsDuration
    rw [hn]
    apply wrapInt64_of_range <;> unfold Second <;> norm_num <;> omega

theorem five_seconds : wrapInt64 (wrapInt64 5 * Second) = 5 * Second := by decide


theorem secondsDuration_eq_wrap (n : Int) : secondsDuration n = wrapInt64 (n * 1000000000) := by
  unfold secondsDuration wrapInt64 Second
  show @Eq Int _ _
  norm_num
  omega

/-! ## The setters -/

theorem toOption_timeout_self (c : SetterCall) (app : Application) :
    (c.toOption app).timeout c.field = secondsDuration c.n := by
  obtain ⟨f, n⟩ := c
  cases f <;> rfl

theorem toOption_timeout_other (c : SetterCall) (app : Application) (g : TimeoutField)
    (h : g ≠ c.field) : (c.toOption app).timeout g = app.timeout g := by
  obtain ⟨f, n⟩ := c
  cases f <;> cases g <;> first | rfl | exact absurd rfl h

theorem toOption_framed (c : SetterCall) (app : Application) :
    framed c.field app (c.toOption app) := by
  refine ⟨?_, ?_, ?_, ?_, ?_, fun g hg => toOption_timeout_other c app g hg⟩ <;>
    (obtain ⟨f, n⟩ := c; cases f <;> rfl)

/-- C3. Applying `SetIdleTimeOut n`, `SetReadTimeOut n`, `SetHeaderTimeOut n` or
`SetWriteTimeOut n` to any `Application` stores the duration of `n` seconds in
the timeout the setter is named after and leaves every other field as it was:
the three other timeouts, the configuration, the version string, the template
mapping and both loggers. -/
theorem setters_change_one_field (app : Application) (n : Int) :
    ((SetIdleTimeOut n app).idleTimeOut = secondsDuration n ∧
      framed .idle app (SetIdleTimeOut n app)) ∧
    ((SetReadTimeOut n app).readTimeOut = secondsDuration n ∧
      framed .read app (SetReadTimeOut n app)) ∧
    ((SetHeaderTimeOut n app).headerTimeOut = secondsDuration n ∧
      framed .header app (SetHeaderTimeOut n app)) ∧
    ((SetWriteTimeOut n app).writeTimeOut = secondsDuration n ∧
      framed .write app (SetWriteTimeOut n app)) :=
  ⟨⟨rfl, toOption_framed ⟨.idle, n⟩ app⟩, ⟨rfl, toOption_framed ⟨.read, n⟩ app⟩,
    ⟨rfl, toOption_framed ⟨.header, n⟩ app⟩, ⟨rfl, toOption_framed ⟨.write, n⟩ app⟩⟩

/-- C9, as stated, fails: `-9223372037` is a negative 64-bit `int`, and
`SetIdleTimeOut (-9223372037)` stores a positive duration (the product wraps). -/
theorem negative_seconds_stored_positive :
    (-9223372037 : Int) < 0 ∧ -2 ^ 63 ≤ (-9223372037 : Int) ∧
    (SetIdleTimeOut (-9223372037) Application.zero).idleTimeOut = 9223372036709551616 ∧
    ¬ (SetIdleTimeOut (-9223372037) Application.zero).idleTimeOut < 0 := by
  decide

/-- C9, amended. For every integer `n` each of the four setters stores
`n * 1000000000` nanoseconds reduced to the signed 64-bit range; the stored
duration is exactly `n` seconds if and only if `-9223372036 ≤ n ≤ 9223372036`;
nothing validates `n`: `0` is stored as the zero duration and a negative `n`
of at least `-9223372036` as a negative duration. -/
theorem setters_store_wrapped_seconds (app : Application) (n : Int) :
    ((SetIdleTimeOut n app).idleTimeOut = wrapInt64 (n * 1000000000) ∧
      (SetReadTimeOut n app).readTimeOut = wrapInt64 (n * 1000000000) ∧
      (SetHeaderTimeOut n app).headerTimeOut = wrapInt64 (n * 1000000000) ∧
      (SetWriteTimeOut n app).writeTimeOut = wrapInt64 (n * 1000000000)) ∧
    (wrapInt64 (n * 1000000000) = n * 1000000000 ↔ -9223372036 ≤ n ∧ n ≤ 9223372036) ∧
    (n = 0 → wrapInt64 (n * 1000000000) = 0) ∧
    (-9223372036 ≤ n → n < 0 → wrapInt64 (n * 1000000000) < 0) := by
  have hw := secondsDuration_eq_wrap n
  have hiff := secondsDuration_exact_iff n
  rw [hw] at hiff
  refine ⟨⟨hw, hw, hw, hw⟩, hiff, ?_, ?_⟩
  · intro h0
    subst h0
    decide
  · intro h1 h2
    have he := hiff.2 ⟨h1, by omega⟩
    unfold Second at he
    rw [he]
    omega

/-- C9, amended, at `n = -5`: the hypotheses of the sign clause hold and the
stored duration is `-5` seconds. -/
theorem setters_store_wrapped_seconds_witness :
    (-9223372036 : Int) ≤ -5 ∧ (-5 : Int) < 0 ∧ wrapInt64 (-5 * 1000000000) < 0 :=
  ⟨by decide, by decide,
    (setters_store_wrapped_seconds Application.zero (-5)).2.2.2 (by decide) (by decide)⟩

/-! ## The option loop -/

theorem applyCalls_cons (app : Application) (c : SetterCall) (cs : List SetterCall) :
    applyCalls app (c :: cs) = applyCalls (c.toOption app) cs := rfl

theorem lastValue_cons (fld : TimeoutField) (c : SetterCall) (cs : List SetterCall) :
    lastValue fld (c :: cs) =
      match lastValue fld cs with
      | some n => some n
      | none => if c.field = fld then some c.n else none := by
  unfold lastValue
  generalize hl : List.filter (fun c => decide (c.field = fld)) cs = l
  by_cases h : c.field = fld
  · simp only [List.filter_cons, h, decide_True, if_true, hl]
    cases l with
    | nil => rfl
    | cons d ds =>
      rw [List.getLast?_cons_cons]
      cases hx : (d :: ds).getLast? with
      | none => simp at hx
      | some x => rfl
  · have hc : List.filter (fun c => decide (c.field = fld)) (c :: cs) = l := by
      rw [List.filter_cons, hl]
      simp [h]
    rw [hc]
    cases hx : l.getLast? with
    | none => simp [h]
    | some x => rfl

theorem applyCalls_timeout (calls : List SetterCall) (app : Application) (fld : TimeoutField) :
    (applyCalls app calls).timeout fld = expectedTimeout (app.timeout fld) fld calls := by
  induction calls generalizing app with
  | nil => rfl
  | cons c cs ih =>
    rw [applyCalls_cons, ih]
    unfold expectedTimeout
    rw [lastValue_cons]
    cases hl : lastValue fld cs with
    | some n => rfl
    | none =>
      by_cases h : c.field = fld
      · simp only [h, if_true]
        rw [← h]
        exact toOption_timeout_self c app
      · simp only [h, if_false]
        exact toOption_timeout_other c app fld (fun e => h e.symm)

theorem applyCalls_frame (calls : List SetterCall) (app : Application) :
    (applyCalls app calls).config = app.config ∧
    (applyCalls app calls).infoLog = app.infoLog ∧
    (applyCalls app calls).errorLog = app.errorLog ∧
    (applyCalls app calls).templateCache = app.templateCache ∧
    (applyCalls app calls).version = app.version := by
  induction calls generalizing app with
  | nil => exact ⟨rfl, rfl, rfl, rfl, rfl⟩
  | cons c cs ih =>
    rw [applyCalls_cons]
    obtain ⟨h1, h2, h3, h4, h5, _⟩ := toOption_framed c app
    obtain ⟨i1, i2, i3, i4, i5⟩ := ih (c.toOption app)
    exact ⟨i1.trans h1, i2.trans h2, i3.trans h3, i4.trans h4, i5.trans h5⟩


/-! ## `flag.Parse` -/

theorem parseOne_cases (f : FlagSet) :
    (f.parseOne.2 ≠ .ok true ∧ f.parseOne.1.formal = f.formal) ∨
    (∃ name fl v val rest, f.lookup name = some fl ∧ fl.Name = name ∧
      fl.Value.Set v = .ok val ∧ rest.length < f.args.length ∧
      f.parseOne = ({ formal := f.formal.map
                        (fun e => if e.Name = name then { e with Value := val } else e),
                      actual := name :: f.actual, args := rest, parsed := f.parsed },
                    .ok true)) := by
  generalize hr : f.parseOne = r
  unfold FlagSet.parseOne at hr
  split at hr
  · subst hr; left; exact ⟨by simp, rfl⟩
  · rename_i s rest hargs
    split at hr
    · rename_i c cs hs
      split at hr
      · subst hr; left; exact ⟨by simp, rfl⟩
      · generalize (if c = '-' then cs else c :: cs) = name at hr
        dsimp only at hr
        split at hr
        · subst hr; left; exact ⟨by simp, rfl⟩
        · generalize splitEquals name = sp at hr
          obtain ⟨nm, hasValue, value⟩ := sp
          dsimp only at hr
          split at hr
          · split at hr <;> (subst hr; left; exact ⟨by simp, rfl⟩)
          · rename_i fl hfl
            have hname : fl.Name = String.mk nm := by
              have := List.find?_some hfl
              simpa using this
            split at hr
            · subst hr; left; exact ⟨by simp, rfl⟩
            · rename_i v f2 hnext
              split at hr
              · subst hr; left
                refine ⟨by simp, ?_⟩
                split at hnext
                · simp at hnext; rw [← hnext.2]
                · split at hnext
                  · simp at hnext; rw [← hnext.2]
                  · simp at hnext
              · rename_i val hval
                right
                have hf2 : f2.formal = f.formal ∧ f2.actual = f.actual ∧
                    f2.parsed = f.parsed ∧ f2.args.length ≤ rest.length := by
                  split at hnext
                  · simp at hnext; rw [← hnext.2]; simp
                  · split at hnext
                    · simp at hnext; rw [← hnext.2]; simp
                    · simp at hnext
                obtain ⟨e1, e2, e3, e4⟩ := hf2
                refine ⟨String.mk nm, fl, v, val, f2.args, hfl, hname, hval, ?_, ?_⟩
                · rw [hargs]; simp; omega
                · rw [← hr]; simp [FlagSet.store, e1, e2, e3]
    · subst hr; left; exact ⟨by simp, rfl⟩

theorem parseLoop_succ (n : Nat) (f : FlagSet) :
    FlagSet.parseLoop (n + 1) f =
      match f.parseOne with
      | (f1, .ok true) => FlagSet.parseLoop n f1
      | (f1, .ok false) => (f1, none)
      | (f1, .error e) => (f1, some e) := rfl

theorem parseLoop_stop (n : Nat) (f : FlagSet) (h : f.parseOne.2 ≠ .ok true) :
    FlagSet.parseLoop (n + 1) f =
      (f.parseOne.1, match f.parseOne.2 with
        | .ok _ => none
        | .error e => some e) := by
  rw [parseLoop_succ]
  generalize f.parseOne = r at h
  obtain ⟨f1, res⟩ := r
  cases res with
  | error e => rfl
  | ok b =>
    cases b with
    | false => rfl
    | true => exact absurd rfl h

/-- The fuel of `parseLoop` is immaterial once it exceeds the number of
arguments: the loop then ends by itself, as the `for` loop of `Parse` does. -/
theorem parseLoop_fuel (n m : Nat) (f : FlagSet) (hn : f.args.length < n)
    (hm : f.args.length < m) : FlagSet.parseLoop n f = FlagSet.parseLoop m f := by
  induction n generalizing m f with
  | zero => omega
  | succ n ih =>
    cases m with
    | zero => omega
    | succ m =>
      rcases parseOne_cases f with ⟨hne, _⟩ | ⟨name, fl, v, val, rest, _, _, _, hlen, heq⟩
      · rw [parseLoop_stop n f hne, parseLoop_stop m f hne]
      · rw [parseLoop_succ, parseLoop_succ, heq]
        exact ih m _ (by simp only []; omega) (by simp only []; omega)

theorem Parse_fuel (f : FlagSet) (arguments : List String) (extra : Nat) :
    FlagSet.parseLoop (arguments.length + 1 + extra) { f with parsed := true, args := arguments } =
      f.Parse arguments :=
  parseLoop_fuel _ _ _ (by simp only []; omega) (by simp only []; omega)

/-- A property of the `formal` map that every successful `Set` preserves holds
after the parse loop. -/
theorem parseLoop_formal (P : List Flag → Prop)
    (hstep : ∀ (l : List Flag) (name : String) (fl : Flag) (v : String) (val : Value),
      P l → l.find? (fun e => e.Name = name) = some fl → fl.Value.Set v = .ok val →
      P (l.map (fun e => if e.Name = name then { e with Value := val } else e)))
    (n : Nat) (f : FlagSet) (h : P f.formal) : P (FlagSet.parseLoop n f).1.formal := by
  induction n generalizing f with
  | zero => exact h
  | succ n ih =>
    rcases parseOne_cases f with ⟨hne, hform⟩ | ⟨name, fl, v, val, rest, hl, _, hv, _, heq⟩
    · rw [parseLoop_stop n f hne]
      simp only []
      rw [hform]
      exact h
    · rw [parseLoop_succ, heq]
      exact ih _ (hstep f.formal name fl v val h hl hv)

theorem Parse_formal (P : List Flag → Prop)
    (hstep : ∀ (l : List Flag) (name : String) (fl : Flag) (v : String) (val : Value),
      P l → l.find? (fun e => e.Name = name) = some fl → fl.Value.Set v = .ok val →
      P (l.map (fun e => if e.Name = name then { e with Value := val } else e)))
    (f : FlagSet) (arguments : List String) (h : P f.formal) :
    P (f.Parse arguments).1.formal :=
  parseLoop_formal P hstep _ _ h

theorem Parse_names (f : FlagSet) (arguments : List String) :
    (f.Parse arguments).1.formal.map (fun e => e.Name) = f.formal.map (fun e => e.Name) := by
  apply Parse_formal (fun l => l.map (fun e => e.Name) = f.formal.map (fun e => e.Name))
  · intro l name fl v val hl _ _
    rw [← hl, List.map_map]
    apply List.map_congr_left
    intro e _
    simp only [Function.comp]
    split_ifs <;> rfl
  · rfl

theorem lookup_isSome_iff (f : FlagSet) (name : String) :
    (f.lookup name).isSome ↔ name ∈ f.formal.map (fun e => e.Name) := by
  unfold FlagSet.lookup
  rw [List.find?_isSome]
  simp only [List.mem_map, decide_eq_true_eq]

theorem ParseInt_range (s : List Char) (v : Int) (h : ParseInt s = .ok v) :
    -2 ^ 63 ≤ v ∧ v < 2 ^ 63 := by
  unfold ParseInt at h
  split at h
  · exact absurd h (by simp)
  · dsimp only at h
    split at h
    · exact absurd h (by simp)
    · split_ifs at h
      all_goals (injection h with h; rw [← h]; exact wrapInt64_range _)

theorem Parse_portInRange (f : FlagSet) (arguments : List String) (h : portInRange f.formal) :
    portInRange (f.Parse arguments).1.formal := by
  apply Parse_formal portInRange _ f arguments h
  intro l name fl v val hl hfind hset e he hport
  rw [List.mem_map] at he
  obtain ⟨e0, he0, rfl⟩ := he
  have hfl_mem : fl ∈ l := List.mem_of_find?_eq_some hfind
  have hfl_name : fl.Name = name := by simpa using List.find?_some hfind
  by_cases hn : e0.Name = name
  · rw [if_pos hn] at hport ⊢
    have hport0 : e0.Name = "port" := hport
    have hfp : fl.Name = "port" := by rw [hfl_name, ← hn]; exact hport0
    obtain ⟨v0, hv0, _⟩ := hl fl hfl_mem hfp
    rw [hv0] at hset
    simp only [Value.Set] at hset
    split at hset
    · rename_i w hw
      injection hset with hset
      exact ⟨w, hset.symm, ParseInt_range _ _ hw⟩
    · exact absurd hset (by simp)
  · rw [if_neg hn] at hport ⊢
    exact hl e0 he0 hport

/-! ## `NewApplication` -/

theorem buildApplication_eq (cfg : config) (opts : List AppOption) :
    buildApplication cfg opts = opts.foldl (fun app option => option app) (initialApplication cfg) :=
  rfl

theorem buildApplication_calls (cfg : config) (calls : List SetterCall) :
    buildApplication cfg (calls.map SetterCall.toOption) = applyCalls (initialApplication cfg) calls :=
  rfl

theorem Var_ok {f f1 : FlagSet} {v : Value} {name usage : String}
    (h : f.Var v name usage = .ok f1) :
    f.lookup name = none ∧
    f1 = { f with formal := f.formal ++ [{ Name := name, Usage := usage, Value := v,
                                            DefValue := v.text }] } := by
  unfold FlagSet.Var at h
  split_ifs at h with h1 h2 h3
  injection h with h
  refine ⟨?_, h.symm⟩
  cases hl : f.lookup name with
  | none => rfl
  | some fl => rw [hl] at h3; exact absurd rfl h3

theorem NewApplication_ok {p p1 : Process} {opts : List AppOption} {ptr : Nat}
    (h : NewApplication p opts = (p1, .ok ptr)) :
    ∃ f4 : FlagSet, (f4.lookup "port").isSome ∧ portInRange f4.formal ∧ ptr = p.heap.length ∧
      p1 = { Args := p.Args, environ := p.environ, CommandLine := f4,
             heap := p.heap ++ [buildApplication (configOf f4 p) opts] } := by
  unfold NewApplication at h
  dsimp only at h
  split at h
  · exact absurd (congrArg Prod.snd h) (by simp)
  · rename_i f1 h1
    split at h
    · exact absurd (congrArg Prod.snd h) (by simp)
    · rename_i f2 h2
      split at h
      · exact absurd (congrArg Prod.snd h) (by simp)
      · rename_i f3 h3
        obtain ⟨n1, e1⟩ := Var_ok h1
        obtain ⟨_, e2⟩ := Var_ok h2
        obtain ⟨_, e3⟩ := Var_ok h3
        have hform : f3.formal = p.CommandLine.formal ++
            [{ Name := "port", Usage := "Server port to listen on", Value := .intValue 3001,
               DefValue := "3001" },
             { Name := "env",
               Usage := "Application environment \x7bapplication | production\x7d",
               Value := .stringValue "development", DefValue := "development" },
             { Name := "api", Usage := "URL to api",
               Value := .stringValue "http://localhost:3000",
               DefValue := "http://localhost:3000" }] := by
          rw [e3, e2, e1]
          simp [Value.text]
          rfl
        have hport3 : "port" ∈ f3.formal.map (fun e => e.Name) := by
          rw [hform]; simp
        have hinv3 : portInRange f3.formal := by
          intro e he hname
          rw [hform, List.mem_append] at he
          rcases he with he | he
          · have hnone := List.find?_eq_none.1 n1 e he
            simp [hname] at hnone
          · simp only [List.mem_cons, List.mem_singleton, List.not_mem_nil, or_false] at he
            rcases he with rfl | rfl | rfl
            · exact ⟨3001, rfl, by decide, by decide⟩
            · exact absurd hname (by decide)
            · exact absurd hname (by decide)
        split at h
        · exact absurd (congrArg Prod.snd h) (by simp)
        · rename_i f4 h4
          have hf4 : (f3.Parse p.Args).1 = f4 := by rw [h4]
          refine ⟨f4, ?_, ?_, ?_, ?_⟩
          · rw [lookup_isSome_iff, ← hf4, Parse_names]
            exact hport3
          · rw [← hf4]
            exact Parse_portInRange f3 p.Args hinv3
          · have e := congrArg Prod.snd h
            injection e with e
            exact e.symm
          · exact (congrArg Prod.fst h).symm

theorem NewApplication_start (args : List String) (environ : List (String × String))
    (opts : List AppOption) :
    NewApplication (Process.start args environ) opts =
      match startFlags.Parse args with
      | (f4, some e) =>
        ({ Args := args, environ := environ, CommandLine := f4, heap := [] },
          .error (.exit (exitCode e) e))
      | (f4, none) =>
        ({ Args := args, environ := environ, CommandLine := f4,
           heap := [buildApplication (configOf f4 (Process.start args environ)) opts] },
          .ok 0) := by
  rfl

theorem NewApplication_redefined (p : Process) (opts : List AppOption)
    (h : (p.CommandLine.lookup "port").isSome) :
    NewApplication p opts = (p, .error (.panicFlagRedefined "port")) := by
  unfold NewApplication
  have hv : p.CommandLine.Var (.intValue 3001) "port" "Server port to listen on" =
      .error (.panicFlagRedefined "port") := by
    unfold FlagSet.Var
    rw [if_neg (by decide), if_neg (by decide), if_pos h]
  dsimp only
  rw [hv]


theorem heap_concat_get (l : List Application) (a : Application) :
    (l ++ [a])[l.length]? = some a := by
  simp

theorem initialApplication_timeout (cfg : config) (fld : TimeoutField) :
    (initialApplication cfg).timeout fld = 5 * Second := by
  cases fld <;> exact five_seconds

theorem NewApplication_calls {p p1 : Process} {calls : List SetterCall} {ptr : Nat}
    (h : NewApplication p (calls.map SetterCall.toOption) = (p1, .ok ptr)) :
    ∃ f4 : FlagSet, (f4.lookup "port").isSome ∧ portInRange f4.formal ∧
      p1.heap[ptr]? = some (applyCalls (initialApplication (configOf f4 p)) calls) := by
  obtain ⟨f4, h1, h2, h3, h4⟩ := NewApplication_ok h
  refine ⟨f4, h1, h2, ?_⟩
  rw [h4, h3, ← buildApplication_calls]
  exact heap_concat_get _ _

theorem NewApplication_no_args (environ : List (String × String)) (opts : List AppOption) :
    NewApplication (Process.start [] environ) opts =
      ({ Args := [], environ := environ,
         CommandLine := { startFlags with parsed := true },
         heap := [buildApplication (configOf startFlags (Process.start [] environ)) opts] },
        .ok 0) := by
  rfl

/-! ## The claims about construction -/

/-- C1. For every sequence of calls of the four setters, whenever
`NewApplication` returns, each timeout field of the `Application` it returns
holds the duration set by the last call in the sequence that targets the field,
and exactly 5 seconds when no call targets it; and on the empty command line
`NewApplication` does return. -/
theorem options_last_write_wins (calls : List SetterCall) :
    (∀ (p p1 : Process) (ptr : Nat),
      NewApplication p (calls.map SetterCall.toOption) = (p1, .ok ptr) →
      ∃ app, p1.heap[ptr]? = some app ∧
        app.idleTimeOut = expectedTimeout (5 * Second) .idle calls ∧
        app.readTimeOut = expectedTimeout (5 * Second) .read calls ∧
        app.headerTimeOut = expectedTimeout (5 * Second) .header calls ∧
        app.writeTimeOut = expectedTimeout (5 * Second) .write calls) ∧
    (∀ environ : List (String × String), ∃ p1,
      NewApplication (Process.start [] environ) (calls.map SetterCall.toOption) =
        (p1, .ok 0)) := by
  constructor
  · intro p p1 ptr h
    obtain ⟨f4, _, _, hget⟩ := NewApplication_calls h
    refine ⟨_, hget, ?_, ?_, ?_, ?_⟩
    · have := applyCalls_timeout calls (initialApplication (configOf f4 p)) .idle
      rw [initialApplication_timeout] at this
      exact this
    · have := applyCalls_timeout calls (initialApplication (configOf f4 p)) .read
      rw [initialApplication_timeout] at this
      exact this
    · have := applyCalls_timeout calls (initialApplication (configOf f4 p)) .header
      rw [initialApplication_timeout] at this
      exact this
    · have := applyCalls_timeout calls (initialApplication (configOf f4 p)) .write
      rw [initialApplication_timeout] at this
      exact this
  · intro environ
    exact ⟨_, NewApplication_no_args environ _⟩

/-- C1 at the calls `SetReadTimeOut 7, SetIdleTimeOut 1, SetReadTimeOut 9` on
the empty command line: the call returns, the read timeout is 9 seconds (the
later of the two calls), the idle timeout 1 second and the two untouched fields
5 seconds. -/
theorem options_last_write_wins_witness :
    ∃ app, (NewApplication (Process.start [] [])
        ([⟨.read, 7⟩, ⟨.idle, 1⟩, ⟨.read, 9⟩].map SetterCall.toOption)).1.heap[0]? = some app ∧
      app.idleTimeOut = 1000000000 ∧ app.readTimeOut = 9000000000 ∧
      app.headerTimeOut = 5000000000 ∧ app.writeTimeOut = 5000000000 :=
  (options_last_write_wins [⟨.read, 7⟩, ⟨.idle, 1⟩, ⟨.read, 9⟩]).1
    (Process.start [] []) _ 0 rfl

/-- C2. Whenever `NewApplication` called with no option returns, the
`Application` it returns has idle, read, read-header and write timeouts of
exactly 5 seconds and a template mapping that is not nil and has no entry; and
on the empty command line the call does return. -/
theorem no_options_defaults :
    (∀ (p p1 : Process) (ptr : Nat), NewApplication p [] = (p1, .ok ptr) →
      ∃ app, p1.heap[ptr]? = some app ∧
        app.idleTimeOut = 5 * Second ∧ app.readTimeOut = 5 * Second ∧
        app.headerTimeOut = 5 * Second ∧ app.writeTimeOut = 5 * Second ∧
        app.templateCache = some []) ∧
    (∀ environ : List (String × String), ∃ p1,
      NewApplication (Process.start [] environ) [] = (p1, .ok 0)) := by
  constructor
  · intro p p1 ptr h
    obtain ⟨f4, _, _, hget⟩ := @NewApplication_calls p p1 [] ptr h
    exact ⟨_, hget, five_seconds, five_seconds, five_seconds, five_seconds, rfl⟩
  · intro environ
    exact ⟨_, NewApplication_no_args environ _⟩

/-- C2 on the empty command line and the empty environment. -/
theorem no_options_defaults_witness :
    ∃ app, (NewApplication (Process.start [] []) []).1.heap[0]? = some app ∧
      app.idleTimeOut = 5 * Second ∧ app.readTimeOut = 5 * Second ∧
      app.headerTimeOut = 5 * Second ∧ app.writeTimeOut = 5 * Second ∧
      app.templateCache = some [] :=
  no_options_defaults.1 (Process.start [] []) _ 0 rfl

/-- C10. Whenever the call `NewApplication(SetIdleTimeOut(30),
SetReadTimeOut(10), SetHeaderTimeOut(5), SetWriteTimeOut(5))` of `main` returns,
the `Application` has idle timeout 30 seconds, read timeout 10 seconds,
read-header timeout 5 seconds, write timeout 5 seconds and version string
`"1.0.0"`; and on the empty command line the call does return. -/
theorem main_application :
    (∀ (p p1 : Process) (ptr : Nat), NewApplication p mainOptions = (p1, .ok ptr) →
      ∃ app, p1.heap[ptr]? = some app ∧
        app.idleTimeOut = 30 * Second ∧ app.readTimeOut = 10 * Second ∧
        app.headerTimeOut = 5 * Second ∧ app.writeTimeOut = 5 * Second ∧
        app.version = "1.0.0") ∧
    (∀ environ : List (String × String), ∃ p1,
      NewApplication (Process.start [] environ) mainOptions = (p1, .ok 0)) := by
  constructor
  · intro p p1 ptr h
    obtain ⟨f4, _, _, h3, h4⟩ := NewApplication_ok h
    refine ⟨buildApplication (configOf f4 p) mainOptions, ?_, ?_, ?_, ?_, ?_, rfl⟩
    · rw [h4, h3]
      exact heap_concat_get _ _
    · exact (show secondsDuration 30 = 30 * Second by decide)
    · exact (show secondsDuration 10 = 10 * Second by decide)
    · exact (show secondsDuration 5 = 5 * Second by decide)
    · exact (show secondsDuration 5 = 5 * Second by decide)
  · intro environ
    exact ⟨_, NewApplication_no_args environ _⟩

/-- C10 on the empty command line and the empty environment. -/
theorem main_application_witness :
    ∃ app, (NewApplication (Process.start [] []) mainOptions).1.heap[0]? = some app ∧
      app.idleTimeOut = 30 * Second ∧ app.readTimeOut = 10 * Second ∧
      app.headerTimeOut = 5 * Second ∧ app.writeTimeOut = 5 * Second ∧
      app.version = "1.0.0" :=
  main_application.1 (Process.start [] []) _ 0 rfl


theorem NewApplication_start_ok (args : List String) (environ : List (String × String))
    (opts : List AppOption) (h : (startFlags.Parse args).2 = none) :
    NewApplication (Process.start args environ) opts =
      ({ Args := args, environ := environ, CommandLine := (startFlags.Parse args).1,
         heap := [buildApplication
                    (configOf (startFlags.Parse args).1 (Process.start args environ)) opts] },
        .ok 0) := by
  rw [NewApplication_start]
  generalize startFlags.Parse args = r at h
  obtain ⟨f4, e⟩ := r
  dsimp only at h
  subst h
  rfl

theorem Getenv_unset (p : Process) (key : String) (h : ∀ kv ∈ p.environ, kv.1 ≠ key) :
    p.Getenv key = "" := by
  unfold Process.Getenv
  have hnone : p.environ.find? (fun kv => kv.1 = key) = none := by
    rw [List.find?_eq_none]
    intro kv hkv
    simpa using h kv hkv
  rw [hnone]

theorem intVar_port_range (f : FlagSet) (h : portInRange f.formal) :
    -2 ^ 63 ≤ f.intVar "port" 3001 ∧ f.intVar "port" 3001 < 2 ^ 63 := by
  unfold FlagSet.intVar
  split
  · rename_i nm us v dv hl
    have hmem := List.mem_of_find?_eq_some hl
    have hname : nm = "port" := by simpa using List.find?_some hl
    obtain ⟨w, hw, hr⟩ := h _ hmem hname
    injection hw with hw
    rw [hw]
    exact hr
  · exact ⟨by decide, by decide⟩

theorem startupLine_data (cfg : config) :
    (startupLine cfg).data =
      "Starting HTTP server in ".data ++ cfg.env.data ++ " mode on port: ".data ++
        (formatInt cfg.port).data ++ "\n".data := by
  unfold startupLine
  simp only [String.data_append]

theorem startupLine_contains (cfg : config) :
    List.IsInfix cfg.env.data (startupLine cfg).data ∧
    List.IsInfix (formatInt cfg.port).data (startupLine cfg).data := by
  rw [startupLine_data]
  constructor
  · exact ⟨"Starting HTTP server in ".data,
      " mode on port: ".data ++ (formatInt cfg.port).data ++ "\n".data, by
        simp only [List.append_assoc]⟩
  · exact ⟨"Starting HTTP server in ".data ++ cfg.env.data ++ " mode on port: ".data,
      "\n".data, by simp only [List.append_assoc]⟩

theorem startupLine_contains_of (cfg : config) (e : String) (n : Int) (he : cfg.env = e)
    (hn : cfg.port = n) :
    List.IsInfix e.data (startupLine cfg).data ∧
    List.IsInfix (formatInt n).data (startupLine cfg).data := by
  subst he hn
  exact startupLine_contains cfg

/-! ## The claims about configuration and `Serve` -/

/-- C4. For every `Application`, the server `Serve` builds has the address
`":"` followed by the decimal rendering of the configured port, and its
`IdleTimeout`, `ReadTimeout`, `ReadHeaderTimeout` and `WriteTimeout` are the
idle, read, read-header and write timeouts of the `Application`; `Serve`
reaches `ListenAndServe` with that server whenever the info logger is set. -/
theorem serve_server_fields {H E : Type} (Routes : Application → H)
    (ListenAndServe : Server H → E) (app : Application) :
    ((app.server Routes).Addr = ":" ++ formatInt app.config.port ∧
      (app.server Routes).IdleTimeout = app.idleTimeOut ∧
      (app.server Routes).ReadTimeout = app.readTimeOut ∧
      (app.server Routes).ReadHeaderTimeout = app.headerTimeOut ∧
      (app.server Routes).WriteTimeout = app.writeTimeOut) ∧
    (∀ run, app.Serve Routes ListenAndServe = .ok run →
      run.srv = app.server Routes ∧ run.result = ListenAndServe (app.server Routes)) ∧
    (∀ l, app.infoLog = some l → ∃ run, app.Serve Routes ListenAndServe = .ok run) := by
  refine ⟨⟨rfl, rfl, rfl, rfl, rfl⟩, ?_, ?_⟩
  · intro run h
    unfold Application.Serve at h
    dsimp only at h
    split at h
    · exact absurd h (by simp)
    · injection h with h
      rw [← h]
      exact ⟨rfl, rfl⟩
  · intro l hl
    unfold Application.Serve
    dsimp only
    rw [hl]
    exact ⟨_, rfl⟩

/-- C4 at the `Application` built for port 3001 with idle and read timeouts
changed: the address is `":3001"` and no timeout is crossed. -/
theorem serve_server_fields_witness :
    ∃ run, (SetReadTimeOut 10 (SetIdleTimeOut 30
        (initialApplication { config.zero with port := 3001 }))).Serve
          (fun _ => ()) (fun _ => ()) = .ok run ∧
      run.srv.Addr = ":3001" ∧ run.srv.IdleTimeout = 30000000000 ∧
      run.srv.ReadTimeout = 10000000000 ∧ run.srv.ReadHeaderTimeout = 5000000000 ∧
      run.srv.WriteTimeout = 5000000000 := by
  obtain ⟨run, hrun⟩ := (serve_server_fields (fun _ => ()) (fun _ => ())
    (SetReadTimeOut 10 (SetIdleTimeOut 30
      (initialApplication { config.zero with port := 3001 })))).2.2 _ rfl
  refine ⟨run, hrun, ?_⟩
  injection hrun with hrun
  rw [← hrun]
  exact ⟨by decide, by decide, by decide, by decide, by decide⟩

/-- C5. With no command-line argument and with `STRIPE_KEY` and
`STRIPE_SECRET` unset in the environment, `NewApplication` returns, and the
configuration of the `Application` has port 3001, env `"development"`, api
`"http://localhost:3000"` and empty `stripe.key` and `stripe.secret`. -/
theorem defaults_without_flags (environ : List (String × String)) (calls : List SetterCall)
    (hunset : ∀ kv ∈ environ, kv.1 ≠ "STRIPE_KEY" ∧ kv.1 ≠ "STRIPE_SECRET") :
    ∃ p1 app, NewApplication (Process.start [] environ) (calls.map SetterCall.toOption) =
        (p1, .ok 0) ∧
      p1.heap[0]? = some app ∧
      app.config = { port := 3001, env := "development", api := "http://localhost:3000",
                     db := { dsn := "" }, stripe := { secret := "", key := "" } } := by
  refine ⟨_, applyCalls (initialApplication (configOf startFlags (Process.start [] environ)))
    calls, NewApplication_no_args environ _, rfl, ?_⟩
  rw [(applyCalls_frame calls _).1]
  have hk : (Process.start [] environ).Getenv "STRIPE_KEY" = "" :=
    Getenv_unset _ _ (fun kv hkv => (hunset kv hkv).1)
  have hs : (Process.start [] environ).Getenv "STRIPE_SECRET" = "" :=
    Getenv_unset _ _ (fun kv hkv => (hunset kv hkv).2)
  show configOf startFlags (Process.start [] environ) = _
  unfold configOf
  rw [hk, hs]
  rfl

/-- C5 in an environment that sets only `HOME` and `STRIPE_KEYS`. -/
theorem defaults_without_flags_witness :
    ∃ p1 app, NewApplication (Process.start [] [("HOME", "/root"), ("STRIPE_KEYS", "x")])
        (([] : List SetterCall).map SetterCall.toOption) = (p1, .ok 0) ∧
      p1.heap[0]? = some app ∧
      app.config = { port := 3001, env := "development", api := "http://localhost:3000",
                     db := { dsn := "" }, stripe := { secret := "", key := "" } } :=
  defaults_without_flags [("HOME", "/root"), ("STRIPE_KEYS", "x")] [] (by decide)


theorem Serve_ok {H E : Type} (Routes : Application → H) (ListenAndServe : Server H → E)
    (app : Application) (l : Logger) (h : app.infoLog = some l) :
    app.Serve Routes ListenAndServe =
      .ok { srv := app.server Routes, logged := startupLine app.config,
            result := ListenAndServe (app.server Routes) } := by
  unfold Application.Serve
  dsimp only
  rw [h]

theorem startupLine_eq (cfg : config) (e : String) (n : Int) (he : cfg.env = e)
    (hn : cfg.port = n) :
    startupLine cfg = "Starting HTTP server in " ++ e ++ " mode on port: " ++ formatInt n ++ "\n" := by
  subst he hn
  rfl

theorem applyCalls_infoLog (cfg : config) (calls : List SetterCall) :
    (applyCalls (initialApplication cfg) calls).infoLog =
      some (Logger.New .Stdout "INFO\t" (Ldate ||| Ltime)) :=
  (applyCalls_frame calls (initialApplication cfg)).2.1

/-- C6. On the command line `-port 8080 -env production`, `NewApplication`
returns an `Application` whose configuration has port 8080, env `"production"`
and the default api, and `Serve` on that `Application` logs the line
`Starting HTTP server in production mode on port: 8080`, which contains
`production` and `8080`.  In general `Serve` on every `Application` that
`NewApplication` returns, and on every `Application` with an info logger, logs
the line `Starting HTTP server in <env> mode on port: <port>`, which contains
the env string and the decimal port of its configuration. -/
theorem flags_port_env :
    (∀ (environ : List (String × String)) (calls : List SetterCall) (H E : Type)
      (Routes : Application → H) (ListenAndServe : Server H → E), ∃ p1 app run,
      NewApplication (Process.start ["-port", "8080", "-env", "production"] environ)
        (calls.map SetterCall.toOption) = (p1, .ok 0) ∧
      p1.heap[0]? = some app ∧
      app.config.port = 8080 ∧ app.config.env = "production" ∧
      app.config.api = "http://localhost:3000" ∧
      app.Serve Routes ListenAndServe = .ok run ∧
      run.logged = "Starting HTTP server in production mode on port: 8080\n" ∧
      List.IsInfix "production".data run.logged.data ∧
      List.IsInfix "8080".data run.logged.data ∧
      List.IsInfix "production".data (startupLine app.config).data ∧
      List.IsInfix "8080".data (startupLine app.config).data) ∧
    (∀ cfg : config,
      startupLine cfg =
        "Starting HTTP server in " ++ cfg.env ++ " mode on port: " ++ formatInt cfg.port ++ "\n" ∧
      List.IsInfix cfg.env.data (startupLine cfg).data ∧
      List.IsInfix (formatInt cfg.port).data (startupLine cfg).data) ∧
    (∀ (H E : Type) (Routes : Application → H) (ListenAndServe : Server H → E)
      (app : Application) (run : ServeRun H E),
      app.Serve Routes ListenAndServe = .ok run → run.logged = startupLine app.config) ∧
    (∀ (H E : Type) (Routes : Application → H) (ListenAndServe : Server H → E)
      (app : Application) (l : Logger), app.infoLog = some l →
      ∃ run, app.Serve Routes ListenAndServe = .ok run ∧
        run.logged = "Starting HTTP server in " ++ app.config.env ++ " mode on port: " ++
          formatInt app.config.port ++ "\n" ∧
        List.IsInfix app.config.env.data run.logged.data ∧
        List.IsInfix (formatInt app.config.port).data run.logged.data) ∧
    (∀ (p p1 : Process) (ptr : Nat) (calls : List SetterCall) (H E : Type)
      (Routes : Application → H) (ListenAndServe : Server H → E),
      NewApplication p (calls.map SetterCall.toOption) = (p1, .ok ptr) →
      ∃ app run, p1.heap[ptr]? = some app ∧
        app.Serve Routes ListenAndServe = .ok run ∧
        run.logged = "Starting HTTP server in " ++ app.config.env ++ " mode on port: " ++
          formatInt app.config.port ++ "\n" ∧
        List.IsInfix app.config.env.data run.logged.data ∧
        List.IsInfix (formatInt app.config.port).data run.logged.data) := by
  refine ⟨?_, fun cfg => ⟨rfl, startupLine_contains cfg⟩, ?_, ?_, ?_⟩
  · intro environ calls H E Routes ListenAndServe
    have hcfg := (applyCalls_frame calls (initialApplication
      (configOf (startFlags.Parse ["-port", "8080", "-env", "production"]).1
        (Process.start ["-port", "8080", "-env", "production"] environ)))).1
    have hlog := applyCalls_infoLog
      (configOf (startFlags.Parse ["-port", "8080", "-env", "production"]).1
        (Process.start ["-port", "8080", "-env", "production"] environ)) calls
    have hport : (configOf (startFlags.Parse ["-port", "8080", "-env", "production"]).1
        (Process.start ["-port", "8080", "-env", "production"] environ)).port = 8080 := by
      rfl
    have henv : (configOf (startFlags.Parse ["-port", "8080", "-env", "production"]).1
        (Process.start ["-port", "8080", "-env", "production"] environ)).env = "production" := by
      rfl
    have hapi : (configOf (startFlags.Parse ["-port", "8080", "-env", "production"]).1
        (Process.start ["-port", "8080", "-env", "production"] environ)).api =
          "http://localhost:3000" := by
      rfl
    have hinf := startupLine_contains_of (applyCalls (initialApplication
      (configOf (startFlags.Parse ["-port", "8080", "-env", "production"]).1
        (Process.start ["-port", "8080", "-env", "production"] environ))) calls).config
      "production" 8080 (by rw [hcfg]; exact henv) (by rw [hcfg]; exact hport)
    have hline := startupLine_eq (applyCalls (initialApplication
      (configOf (startFlags.Parse ["-port", "8080", "-env", "production"]).1
        (Process.start ["-port", "8080", "-env", "production"] environ))) calls).config
      "production" 8080 (by rw [hcfg]; exact henv) (by rw [hcfg]; exact hport)
    refine ⟨_, applyCalls (initialApplication
      (configOf (startFlags.Parse ["-port", "8080", "-env", "production"]).1
        (Process.start ["-port", "8080", "-env", "production"] environ))) calls, _,
      NewApplication_start_ok _ environ _ (by rfl), rfl, ?_, ?_, ?_,
      Serve_ok Routes ListenAndServe _ _ hlog, ?_, hinf.1, hinf.2, hinf.1, hinf.2⟩
    · rw [hcfg]; exact hport
    · rw [hcfg]; exact henv
    · rw [hcfg]; exact hapi
    · exact hline.trans (by decide)
  · intro H E Routes ListenAndServe app run h
    unfold Application.Serve at h
    dsimp only at h
    split at h
    · exact absurd h (by simp)
    · injection h with h
      rw [← h]
  · intro H E Routes ListenAndServe app l hl
    exact ⟨_, Serve_ok Routes ListenAndServe app l hl, rfl,
      (startupLine_contains app.config).1, (startupLine_contains app.config).2⟩
  · intro p p1 ptr calls H E Routes ListenAndServe h
    obtain ⟨f4, _, _, hget⟩ := NewApplication_calls h
    exact ⟨_, _, hget,
      Serve_ok Routes ListenAndServe _ _ (applyCalls_infoLog (configOf f4 p) calls), rfl,
      (startupLine_contains _).1, (startupLine_contains _).2⟩

/-- C6 on the command line `-port 9090 -env staging` with the options of
`main`: `NewApplication` returns and `Serve` on the `Application` it built logs
`Starting HTTP server in staging mode on port: 9090`. -/
theorem flags_port_env_witness :
    ∃ app run,
      (NewApplication (Process.start ["-port", "9090", "-env", "staging"] [])
        ([⟨.idle, 30⟩, ⟨.read, 10⟩, ⟨.header, 5⟩, ⟨.write, 5⟩].map
          SetterCall.toOption)).1.heap[0]? = some app ∧
      app.Serve (fun _ => ()) (fun _ => ()) = .ok run ∧
      run.logged = "Starting HTTP server in staging mode on port: 9090\n" := by
  obtain ⟨app, run, hget, hserve, hlogged, _, _⟩ :=
    flags_port_env.2.2.2.2 (Process.start ["-port", "9090", "-env", "staging"] [])
      (NewApplication (Process.start ["-port", "9090", "-env", "staging"] [])
        ([⟨.idle, 30⟩, ⟨.read, 10⟩, ⟨.header, 5⟩, ⟨.write, 5⟩].map SetterCall.toOption)).1 0
      [⟨.idle, 30⟩, ⟨.read, 10⟩, ⟨.header, 5⟩, ⟨.write, 5⟩] Unit Unit
      (fun _ => ()) (fun _ => ()) rfl
  refine ⟨app, run, hget, hserve, ?_⟩
  have h0 : (NewApplication (Process.start ["-port", "9090", "-env", "staging"] [])
      ([⟨.idle, 30⟩, ⟨.read, 10⟩, ⟨.header, 5⟩, ⟨.write, 5⟩].map
        SetterCall.toOption)).1.heap[0]? = some (buildApplication
    (configOf (startFlags.Parse ["-port", "9090", "-env", "staging"]).1
      (Process.start ["-port", "9090", "-env", "staging"] []))
    ([⟨.idle, 30⟩, ⟨.read, 10⟩, ⟨.header, 5⟩, ⟨.write, 5⟩].map SetterCall.toOption)) := rfl
  rw [h0] at hget
  injection hget with hget
  rw [hlogged, ← hget]
  decide

/-! ## Repeated construction and the range of the port -/

/-- C7, as stated, fails: after a first `NewApplication` on the empty command
line has returned, a second call in the same process does not return an
`Application`; it panics with `flag redefined: port`. -/
theorem second_construction_panics :
    (NewApplication (Process.start [] []) mainOptions).2 = .ok 0 ∧
    (NewApplication (NewApplication (Process.start [] []) mainOptions).1 mainOptions).2 =
      .error (.panicFlagRedefined "port") :=
  ⟨rfl, rfl⟩

/-- C7, amended. A first call of `NewApplication` in a process returns unless
flag parsing fails, which ends the process.  A second call in the same process
does not return: registering the flag `port` again panics before anything is
allocated or changed, so the process state, the `Application` of the first call
included, is as the first call left it. -/
theorem construction_once :
    (∀ (args : List String) (environ : List (String × String)) (opts : List AppOption),
      (∃ p1, NewApplication (Process.start args environ) opts = (p1, .ok 0)) ∨
      (∃ p1 e, NewApplication (Process.start args environ) opts =
        (p1, .error (.exit (exitCode e) e)))) ∧
    (∀ (p p1 : Process) (ptr : Nat) (opts1 opts2 : List AppOption),
      NewApplication p opts1 = (p1, .ok ptr) →
      NewApplication p1 opts2 = (p1, .error (.panicFlagRedefined "port"))) := by
  constructor
  · intro args environ opts
    rw [NewApplication_start]
    generalize startFlags.Parse args = r
    obtain ⟨f4, e⟩ := r
    cases e with
    | none => exact Or.inl ⟨_, rfl⟩
    | some e => exact Or.inr ⟨_, e, rfl⟩
  · intro p p1 ptr opts1 opts2 h
    obtain ⟨f4, hport, _, _, hp1⟩ := NewApplication_ok h
    apply NewApplication_redefined
    rw [hp1]
    exact hport

/-- C7, amended, at two calls on the command line `-port 8080`: the first
returns, the second panics and leaves the heap with the one `Application`. -/
theorem construction_once_witness :
    NewApplication (NewApplication (Process.start ["-port", "8080"] []) mainOptions).1 [] =
      ((NewApplication (Process.start ["-port", "8080"] []) mainOptions).1,
        .error (.panicFlagRedefined "port")) ∧
    (NewApplication (Process.start ["-port", "8080"] []) mainOptions).1.heap.length = 1 :=
  ⟨construction_once.2 (Process.start ["-port", "8080"] []) _ 0 mainOptions [] rfl, rfl⟩

/-- C8, as stated, fails: on the command line `-port 70000` `NewApplication`
returns and the port of the configuration is 70000, which is no TCP port. -/
theorem port_beyond_tcp_range :
    (NewApplication (Process.start ["-port", "70000"] []) []).2 = .ok 0 ∧
    (NewApplication (Process.start ["-port", "70000"] []) []).1.heap.map
      (fun app => app.config.port) = [70000] ∧
    ¬ ((0 : Int) ≤ 70000 ∧ (70000 : Int) ≤ 65535) :=
  ⟨rfl, rfl, by decide⟩

/-- C8, amended. For every command line on which `NewApplication` returns, the
port of the resulting configuration is a signed 64-bit integer; nothing
restricts it to `0..65535`. -/
theorem port_is_int64 (p p1 : Process) (ptr : Nat) (calls : List SetterCall)
    (h : NewApplication p (calls.map SetterCall.toOption) = (p1, .ok ptr)) :
    ∃ app, p1.heap[ptr]? = some app ∧
      -2 ^ 63 ≤ app.config.port ∧ app.config.port < 2 ^ 63 := by
  obtain ⟨f4, _, hinv, hget⟩ := NewApplication_calls h
  refine ⟨_, hget, ?_⟩
  rw [(applyCalls_frame calls _).1]
  exact intVar_port_range f4 hinv

/-- C8, amended, on the command line `-port -1`: the call returns and the port,
`-1`, lies in the 64-bit range. -/
theorem port_is_int64_witness :
    ∃ app, (NewApplication (Process.start ["-port", "-1"] [])
        (([] : List SetterCall).map SetterCall.toOption)).1.heap[0]? = some app ∧
      -2 ^ 63 ≤ app.config.port ∧ app.config.port < 2 ^ 63 :=
  port_is_int64 (Process.start ["-port", "-1"] []) _ 0 [] rfl


end GoEcommerce
